import Mathlib

/-!
Shallow embedding of `src/src/aff4_image.cc` (the AFF4 chunked image stream
engine: write-side buffering into compressed chunks packed into indexed
bevies, and the read-side reconstruction path).

Bytes are modelled as `List Nat` (one entry per byte value); machine
integers are `Nat`/`Int` with an explicit `% 2^32` where the source uses
`uint32_t`.  The zip volume, the resolver and the zlib/snappy codecs are
external collaborators of this translation unit; they are modelled by
explicit parameters (`VolEnv`, `Resolver`, `Codec`) whose contracts are
documented where they are introduced.
-/

namespace AFF4

/-- Status codes of the AFF4 library (`AFF4Status`), restricted to the
constructors this translation unit uses. -/
inductive AFF4Status where
  | STATUS_OK
  | NOT_FOUND
  | MEMORY_ERROR
  | GENERIC_ERROR
  | NOT_IMPLEMENTED
  | IO_ERROR
  | FATAL_ERROR
  deriving DecidableEq, Repr

/-- Modelled from the spec: the numeric values of `AFF4Status` come from the
project's header, which is not under src/.  The propagation policy of the
spec (read-side errors abort the whole `Read`, reported through
`_ReadPartial`'s `int` return value, distinct from non-negative chunk
counts) requires every error code to be negative; the values below are the
conventional ones of the library's header. -/
def AFF4Status.code : AFF4Status → Int
  | .STATUS_OK => 0
  | .NOT_FOUND => -1
  | .MEMORY_ERROR => -3
  | .GENERIC_ERROR => -4
  | .NOT_IMPLEMENTED => -7
  | .IO_ERROR => -8
  | .FATAL_ERROR => -9

/-- The compression method enum (`AFF4_IMAGE_COMPRESSION_ENUM_*`):
STORED, ZLIB, SNAPPY and the UNKNOWN marker produced by a failed parse of a
compression URN. -/
inductive CompressionMethod where
  | stored
  | zlib
  | snappy
  | unknown
  deriving DecidableEq, Repr

/-- The external zlib / snappy codecs (the source links against libz and
libsnappy; they are not code of this repository).  Contracts used:
`zlibDeflate` is `compress2(..., level 1)` on a `compressBound`-sized
buffer, which fails only on allocator failure (modelled by `none`);
`zlibInflate d` is the content a standard zlib decoder yields for `d`
(`none` when `d` is not a valid zlib stream); `uncompress` into a
destination of capacity `cap` succeeds exactly when `zlibInflate d = some
out` with `out.length ≤ cap`.  `snappyCompressFn` is `snappy::Compress`
(total) and `snappyUncompressFn` is `snappy::Uncompress` (`none` on corrupt
input). -/
structure Codec where
  zlibDeflate : List Nat → Option (List Nat)
  zlibInflate : List Nat → Option (List Nat)
  snappyCompressFn : List Nat → List Nat
  snappyUncompressFn : List Nat → Option (List Nat)

/-- Little-endian encoding of a `uint32_t` as four bytes (the source writes
`sizeof(uint32_t)` bytes of a `uint32_t` bevy offset on a little-endian
host; the on-disk format is little-endian). -/
def u32le (n : Nat) : List Nat :=
  [n % 256, n / 256 % 256, n / 65536 % 256, n / 16777216 % 256]

/-- Reading a packed `uint32_t[]` little-endian array out of raw bytes
(`(uint32_t *)bevy_index_data.data()` with `index_size = Size() / 4`); a
trailing fragment of fewer than four bytes contributes no entry. -/
def u32leDecode : List Nat → List Nat
  | a :: b :: c :: d :: rest => (a + 256 * b + 65536 * c + 16777216 * d) :: u32leDecode rest
  | _ => []

/-- Conversion of a (possibly negative) signed value to `uint32_t`, as C's
integer conversion does (reduction mod 2^32). -/
def u32cast (i : Int) : Nat := (i % (4294967296 : Int)).toNat

/-- The mutable state of one `AFF4Image` object together with the bevy
members persisted in its containing volume.  `bevy` and `bevy_index` are
the two `StringIO` accumulators of the current bevy (their `Tell()` equals
their length, as they are only appended to); `volume` records, per bevy
number, the index member bytes and the data member bytes created by
`_FlushBevy`. -/
structure ImageState where
  chunk_size : Nat
  chunks_per_segment : Nat
  size : Nat
  compression : CompressionMethod
  bevy_number : Nat
  buffer : List Nat
  bevy : List Nat
  bevy_index : List Nat
  chunk_count_in_bevy : Nat
  readptr : Nat
  dirty : Bool
  volume : List (Nat × List Nat × List Nat)
  deriving DecidableEq, Repr

/-- Whether the volume collaborator can be opened (`AFF4FactoryOpen` on the
volume URN) and whether `CreateMember` succeeds; the source treats both as
fallible external calls. -/
structure VolEnv where
  volumeOk : Bool
  createOk : Bool
  deriving DecidableEq, Repr

/-- The environment in which every volume operation succeeds. -/
def okEnv : VolEnv := { volumeOk := true, createOk := true }

/-- `AFF4Image::_FlushBevy` (src/src/aff4_image.cc:84-124).  An empty bevy
is skipped.  Otherwise `bevy_number++` happens while forming the bevy URN,
before the volume is opened; on a failed open (`NOT_FOUND`) or failed
member creation (`IO_ERROR`) the accumulators are left as they are.  On
success the index member and the data member are written and closed, the
accumulators are truncated and `chunk_count_in_bevy` is reset. -/
def _FlushBevy (env : VolEnv) (s : ImageState) : AFF4Status × ImageState :=
  if s.bevy.length = 0 then
    (.STATUS_OK, s)
  else
    let s1 : ImageState := { s with bevy_number := s.bevy_number + 1 }
    if env.volumeOk = false then
      (.NOT_FOUND, s1)
    else if env.createOk = false then
      (.IO_ERROR, s1)
    else
      (.STATUS_OK, { s1 with
        volume := s1.volume ++ [(s.bevy_number, s.bevy_index, s.bevy)],
        bevy_index := [],
        bevy := [],
        chunk_count_in_bevy := 0 })

/-- `AFF4Image::CompressZlib_` (src/src/aff4_image.cc:172-186): `compress2`
at level 1 into a `compressBound`-sized buffer; `MEMORY_ERROR` on failure.
On failure the output string holds unspecified bytes; the model uses `[]`
(no theorem depends on those bytes). -/
def CompressZlib_ (codec : Codec) (data : List Nat) : AFF4Status × List Nat :=
  match codec.zlibDeflate data with
  | some out => (.STATUS_OK, out)
  | none => (.MEMORY_ERROR, [])

/-- `AFF4Image::CompressSnappy_` (src/src/aff4_image.cc:203-208):
`snappy::Compress`, which always succeeds. -/
def CompressSnappy_ (codec : Codec) (data : List Nat) : AFF4Status × List Nat :=
  (.STATUS_OK, codec.snappyCompressFn data)

/-- `AFF4Image::DeCompressZlib_` (src/src/aff4_image.cc:188-200):
`uncompress` into the caller's buffer of capacity `bufLen`; on success the
buffer is resized to the actual decompressed length, otherwise `IO_ERROR`.
Per zlib's documented contract the call succeeds exactly when the stream is
valid and its decompressed length fits in `bufLen`. -/
def DeCompressZlib_ (codec : Codec) (data : List Nat) (bufLen : Nat) : AFF4Status × List Nat :=
  match codec.zlibInflate data with
  | some out => if out.length ≤ bufLen then (.STATUS_OK, out) else (.IO_ERROR, [])
  | none => (.IO_ERROR, [])

/-- `AFF4Image::DeCompressSnappy_` (src/src/aff4_image.cc:211-218):
`snappy::Uncompress`, which replaces the output string entirely;
`GENERIC_ERROR` on corrupt input. -/
def DeCompressSnappy_ (codec : Codec) (data : List Nat) : AFF4Status × List Nat :=
  match codec.snappyUncompressFn data with
  | some out => (.STATUS_OK, out)
  | none => (.GENERIC_ERROR, [])

/-- `AFF4Image::FlushChunk` (src/src/aff4_image.cc:136-170).  The current
`bevy.Tell()` (cast to `uint32_t`) is recorded in the index accumulator and
the compressed chunk is appended to the data accumulator even when the
compressor reported a failure; an unknown compression method returns
`IO_ERROR` before anything is written.  When the bevy reaches
`chunks_per_segment` chunks, `_FlushBevy`'s status replaces the
compressor's status. -/
def FlushChunk (env : VolEnv) (codec : Codec) (s : ImageState) (data : List Nat) :
    AFF4Status × ImageState :=
  let bevy_offset := s.bevy.length % 4294967296
  let compressed : Option (AFF4Status × List Nat) :=
    match s.compression with
    | .zlib => some (CompressZlib_ codec data)
    | .snappy => some (CompressSnappy_ codec data)
    | .stored => some (.STATUS_OK, data)
    | .unknown => none
  match compressed with
  | none => (.IO_ERROR, s)
  | some ro =>
      let s1 : ImageState := { s with
        bevy_index := s.bevy_index ++ u32le bevy_offset,
        bevy := s.bevy ++ ro.2,
        chunk_count_in_bevy := s.chunk_count_in_bevy + 1 }
      if s1.chunks_per_segment ≤ s1.chunk_count_in_bevy then _FlushBevy env s1
      else (ro.1, s1)

/-- The chunk-cutting loop of `AFF4Image::Write` (src/src/aff4_image.cc:
229-235): while at least `chunk_size` bytes remain, flush one full chunk;
stop with `false` (and the state as mutated so far) when a flush reports an
error.  The loop is driven by an explicit fuel so that the definition
computes by kernel reduction; `fuel = buf.length` always suffices because
each iteration consumes `chunk_size ≥ 1` bytes (with `chunk_size = 0` the
source loop would never terminate; the model's guard returns immediately,
and every claim below assumes a positive chunk size). -/
def consumeChunksF (env : VolEnv) (codec : Codec) :
    Nat → ImageState → List Nat → Bool × ImageState × List Nat
  | 0, s, buf => (true, s, buf)
  | fuel + 1, s, buf =>
    if 0 < s.chunk_size ∧ s.chunk_size ≤ buf.length then
      if (FlushChunk env codec s (buf.take s.chunk_size)).1 = .STATUS_OK then
        consumeChunksF env codec fuel (FlushChunk env codec s (buf.take s.chunk_size)).2
          (buf.drop s.chunk_size)
      else (false, (FlushChunk env codec s (buf.take s.chunk_size)).2, buf)
    else (true, s, buf)

/-- `AFF4Image::Write` (src/src/aff4_image.cc:221-246).  Marks the stream
dirty, appends the data to the line buffer, cuts and flushes full chunks,
keeps the remainder, advances `readptr` and raises `size` when passed;
returns the accepted length, or `0` as soon as one chunk flush fails (in
which case neither the erase of the consumed prefix nor the
`readptr`/`size` update is reached). -/
def Write (env : VolEnv) (codec : Codec) (s : ImageState) (data : List Nat) :
    Nat × ImageState :=
  match consumeChunksF env codec (s.buffer ++ data).length
      { s with dirty := true, buffer := s.buffer ++ data } (s.buffer ++ data) with
  | (true, s1, rest) =>
      (data.length,
        { s1 with
          buffer := rest
          readptr := s1.readptr + data.length
          size := max s1.size (s1.readptr + data.length) })
  | (false, s1, _) => (0, s1)

/-- `AFF4Image::Flush` (src/src/aff4_image.cc:416-441).  When dirty, the
remaining buffer is flushed as one (possibly short, possibly empty) final
chunk and the partial bevy is flushed; both statuses are ignored by the
source.  The resolver metadata writes are external `Set` calls on the
key/value store and are not part of this state; the delegation to
`AFF4Stream::Flush` (whose body is outside this translation unit) clears
the dirty flag and returns `STATUS_OK`, per the spec's metadata-sync
section. -/
def Flush (env : VolEnv) (codec : Codec) (s : ImageState) : AFF4Status × ImageState :=
  if s.dirty then
    (.STATUS_OK,
      { (_FlushBevy env { (FlushChunk env codec s s.buffer).2 with buffer := [] }).2 with
        dirty := false })
  else
    (.STATUS_OK, { s with dirty := false })

/-- Modelled from the spec: the member initializers of `AFF4Image` live in
the class header, which is not under src/.  The spec's data model gives the
defaults: `chunk_size` 32 KiB, `chunks_per_segment` 1024, compression ZLIB,
all counters zero, stream clean and empty. -/
def initImageState : ImageState :=
  { chunk_size := 32768
    chunks_per_segment := 1024
    size := 0
    compression := .zlib
    bevy_number := 0
    buffer := []
    bevy := []
    bevy_index := []
    chunk_count_in_bevy := 0
    readptr := 0
    dirty := false
    volume := [] }

/-- A fresh stream configured with the given chunk size, chunks per
segment and compression method. -/
def freshState (cs cps : Nat) (c : CompressionMethod) : ImageState :=
  { initImageState with chunk_size := cs, chunks_per_segment := cps, compression := c }

/-- A codec stand-in whose compressors are the identity; adequate for every
STORED-compression scenario (the STORED branch never consults the codec). -/
def trivialCodec : Codec :=
  { zlibDeflate := fun d => some d
    zlibInflate := fun d => some d
    snappyCompressFn := fun d => d
    snappyUncompressFn := fun d => some d }

/-- A bevy data member opened for reading: an `AFF4Stream` with contents and
a current position.  `Read(n)` returns up to `n` bytes from the position
(clamped at end of stream) and advances; `Seek(n, SEEK_SET)` sets the
position.  Handles produced by `_ReadPartial`'s `AFF4FactoryOpen` start at
position zero: the writer `Close`s every bevy member after `_FlushBevy`
(which evicts it from the resolver cache), so a reader's open yields a
fresh stream. -/
structure BevyStream where
  data : List Nat
  pos : Nat
  deriving DecidableEq, Repr

/-- `AFF4Stream::Read` on a bevy member: clamped read that advances the
position by the number of bytes actually returned. -/
def BevyStream.readBytes (bs : BevyStream) (n : Nat) : List Nat × BevyStream :=
  let out := (bs.data.drop bs.pos).take n
  (out, { bs with pos := bs.pos + out.length })

/-- `AFF4Stream::Seek(n, SEEK_SET)` on a bevy member. -/
def BevyStream.seekSet (bs : BevyStream) (n : Nat) : BevyStream :=
  { bs with pos := n }

/-- Ghost observation of one execution of `_ReadChunkFromBevy` that reached
the compressed-size computation: the chunk id, its local index `j`, the
index length, the bevy data member's size, the stream position on entry,
`index[j]`, and the `compressed_chunk_size` the code computed.  Recorded
for specification purposes only; no code behaviour depends on it. -/
structure ChunkDecodeTrace where
  chunk_id : Nat
  j : Nat
  indexLen : Nat
  bevySize : Nat
  posBefore : Nat
  idxJ : Nat
  idxJ1 : Nat
  usedSize : Nat
  deriving DecidableEq, Repr

/-- The `compressed_chunk_size` computation of `_ReadChunkFromBevy`
(src/src/aff4_image.cc:274-290): for the last index entry it is
`bevy->Size() - bevy->Tell()` (the stream position before the seek),
otherwise `bevy_index[j+1] - bevy_index[j]`; both land in a C
`unsigned int`, hence the reductions mod 2^32. -/
def compressedChunkSize (index : List Nat) (j : Nat) (bevySize bevyPos : Nat) : Nat :=
  if j = index.length - 1 then u32cast ((bevySize : Int) - (bevyPos : Int))
  else u32cast ((index.getD (j + 1) 0 : Int) - (index.getD j 0 : Int))

/-- `AFF4Image::_ReadChunkFromBevy` (src/src/aff4_image.cc:260-327).
Returns the status, the result string (the decoded chunk is appended only
on success), the bevy stream with its advanced position, and the ghost
trace entry (recorded once the compressed-size computation is reached).
An empty index or an index too short for the chunk is `IO_ERROR`; the
decode buffer handed to the zlib path has capacity `chunk_size`; the
snappy decoder replaces the buffer entirely; an unknown method at this
point is `LOG(FATAL)`, which aborts the process (modelled as a
`FATAL_ERROR` status that the load path makes unreachable). -/
def _ReadChunkFromBevy (codec : Codec) (chunk_size chunks_per_segment : Nat)
    (compression : CompressionMethod) (result : List Nat) (chunk_id : Nat)
    (bs : BevyStream) (bevy_index : List Nat) :
    AFF4Status × List Nat × BevyStream × Option ChunkDecodeTrace :=
  let chunk_id_in_bevy := chunk_id % chunks_per_segment
  let index_size := bevy_index.length
  if index_size = 0 then
    (.IO_ERROR, result, bs, none)
  else if index_size ≤ chunk_id_in_bevy then
    (.IO_ERROR, result, bs, none)
  else
    let compressed_chunk_size :=
      compressedChunkSize bevy_index chunk_id_in_bevy bs.data.length bs.pos
    let tr : ChunkDecodeTrace :=
      { chunk_id := chunk_id
        j := chunk_id_in_bevy
        indexLen := index_size
        bevySize := bs.data.length
        posBefore := bs.pos
        idxJ := bevy_index.getD chunk_id_in_bevy 0
        idxJ1 := bevy_index.getD (chunk_id_in_bevy + 1) 0
        usedSize := compressed_chunk_size }
    let bs1 := bs.seekSet (bevy_index.getD chunk_id_in_bevy 0)
    let rd := bs1.readBytes compressed_chunk_size
    let decoded : AFF4Status × List Nat :=
      match compression with
      | .zlib => DeCompressZlib_ codec rd.1 chunk_size
      | .snappy => DeCompressSnappy_ codec rd.1
      | .stored => (.STATUS_OK, rd.1)
      | .unknown => (.FATAL_ERROR, [])
    if decoded.1 = .STATUS_OK then (.STATUS_OK, result ++ decoded.2, rd.2, some tr)
    else (decoded.1, result, rd.2, some tr)

/-- Looking a bevy's two members up in the volume by bevy number
(`AFF4FactoryOpen` on the data URN and the index URN; `_FlushBevy` creates
the two together, so a bevy is present with both members or absent). -/
def lookupMember (vol : List (Nat × List Nat × List Nat)) (id : Nat) :
    Option (List Nat × List Nat) :=
  match vol.find? (fun e => e.1 == id) with
  | some e => some e.2
  | none => none

/-- Outcome of the inner loop of `_ReadPartial`: `ok = false` carries the
failing status; otherwise `ctr` is the remaining `chunks_to_read`,
`chunk_id` and `chunks_read` the advanced counters. -/
structure InnerResult where
  ok : Bool
  status : AFF4Status
  ctr : Nat
  chunk_id : Nat
  chunks_read : Nat
  result : List Nat
  trace : List ChunkDecodeTrace
  deriving DecidableEq, Repr

/-- The inner loop of `AFF4Image::_ReadPartial`
(src/src/aff4_image.cc:355-372): decode chunks of the current bevy one at a
time, decrementing `chunks_to_read` and advancing `chunk_id`; stop with an
error status as soon as one decode fails, and break (returning the
remaining count) once the next chunk id falls into a later bevy. -/
def _ReadPartialInner (codec : Codec) (cs cps : Nat) (c : CompressionMethod)
    (bevy_id : Nat) (index : List Nat) :
    Nat → BevyStream → Nat → Nat → List Nat → List ChunkDecodeTrace → InnerResult
  | 0, _bs, chunk_id, chunks_read, result, tr =>
      { ok := true, status := .STATUS_OK, ctr := 0, chunk_id := chunk_id
        chunks_read := chunks_read, result := result, trace := tr }
  | ctr + 1, bs, chunk_id, chunks_read, result, tr =>
      let r := _ReadChunkFromBevy codec cs cps c result chunk_id bs index
      let tr1 := match r.2.2.2 with
        | some e => tr ++ [e]
        | none => tr
      if r.1 = .STATUS_OK then
        let chunk_id1 := chunk_id + 1
        let chunks_read1 := chunks_read + 1
        if bevy_id < chunk_id1 / cps then
          { ok := true, status := .STATUS_OK, ctr := ctr, chunk_id := chunk_id1
            chunks_read := chunks_read1, result := r.2.1, trace := tr1 }
        else
          _ReadPartialInner codec cs cps c bevy_id index ctr r.2.2.1 chunk_id1
            chunks_read1 r.2.1 tr1
      else
        { ok := false, status := r.1, ctr := ctr + 1, chunk_id := chunk_id
          chunks_read := chunks_read, result := r.2.1, trace := tr1 }

/-- The outer loop of `AFF4Image::_ReadPartial`
(src/src/aff4_image.cc:329-376), fuelled for kernel computability: per
iteration, open the bevy holding `chunk_id` (a missing bevy returns `-1`),
read its whole index member and reinterpret it as a `uint32_t[]`, then run
the inner loop; an error status is returned as its (negative) numeric
code, and when `chunks_to_read` is exhausted the number of chunks read is
returned.  Each iteration consumes at least one chunk, so `fuel =
chunks_to_read` suffices. -/
def _ReadPartialF (codec : Codec) (cs cps : Nat) (c : CompressionMethod)
    (vol : List (Nat × List Nat × List Nat)) :
    Nat → Nat → Nat → Nat → List Nat → List ChunkDecodeTrace →
    Int × List Nat × List ChunkDecodeTrace
  | 0, _chunk_id, _ctr, chunks_read, result, tr => ((chunks_read : Int), result, tr)
  | fuel + 1, chunk_id, ctr, chunks_read, result, tr =>
      if ctr = 0 then ((chunks_read : Int), result, tr)
      else
        let bevy_id := chunk_id / cps
        match lookupMember vol bevy_id with
        | none => (-1, result, tr)
        | some m =>
            let index := u32leDecode m.1
            let bs : BevyStream := { data := m.2, pos := 0 }
            let r := _ReadPartialInner codec cs cps c bevy_id index ctr bs chunk_id
              chunks_read result tr
            if r.ok then
              _ReadPartialF codec cs cps c vol fuel r.chunk_id r.ctr r.chunks_read
                r.result r.trace
            else
              (r.status.code, r.result, r.trace)

/-- `AFF4Image::_ReadPartial` with the source's entry values
(`chunks_read` starts at zero). -/
def _ReadPartial (codec : Codec) (cs cps : Nat) (c : CompressionMethod)
    (vol : List (Nat × List Nat × List Nat)) (chunk_id ctr : Nat)
    (result : List Nat) (tr : List ChunkDecodeTrace) :
    Int × List Nat × List ChunkDecodeTrace :=
  _ReadPartialF codec cs cps c vol ctr chunk_id ctr 0 result tr

/-- The chunk-fetch loop of `AFF4Image::Read` (src/src/aff4_image.cc:
393-403), fuelled: a negative `_ReadPartial` return aborts with `none`, a
zero return breaks, otherwise the count is subtracted and the loop retries
(the source does not advance `chunk_id` between iterations; `_ReadPartial`
in fact only returns with the count exhausted or an error). -/
def ReadLoopF (codec : Codec) (cs cps : Nat) (c : CompressionMethod)
    (vol : List (Nat × List Nat × List Nat)) :
    Nat → Nat → Nat → List Nat → List ChunkDecodeTrace →
    Option (List Nat × List ChunkDecodeTrace)
  | 0, _chunk_id, _ctr, result, tr => some (result, tr)
  | fuel + 1, chunk_id, ctr, result, tr =>
      if ctr = 0 then some (result, tr)
      else
        let r := _ReadPartial codec cs cps c vol chunk_id ctr result tr
        if r.1 < 0 then none
        else if r.1 = 0 then some (r.2.1, r.2.2)
        else ReadLoopF codec cs cps c vol fuel chunk_id (ctr - r.1.toNat) r.2.1 r.2.2

/-- Modelled from the spec: `AFF4_MAX_READ_LEN` is the hard per-call read
ceiling from the project's header (not under src/); its conventional value
is 100 MiB.  Its only role here is the early rejection in `Read`. -/
def AFF4_MAX_READ_LEN : Nat := 104857600

/-- `std::string::resize(n)`: truncate to `n` bytes, or extend with zero
bytes up to `n`. -/
def resizeTo (l : List Nat) (n : Nat) : List Nat :=
  l.take n ++ List.replicate (n - l.length) 0

/-- Everything `AFF4Image::Read` produces, plus ghost observations:
`assembled` is the chunk concatenation before the head erase and the final
resize (empty on the error and over-length paths), `trace` the decode
trace, `errored` whether the chunk loop reported an error. -/
structure ReadOutcome where
  bytes : List Nat
  state : ImageState
  assembled : List Nat
  trace : List ChunkDecodeTrace
  errored : Bool
  deriving DecidableEq, Repr

/-- `AFF4Image::Read` (src/src/aff4_image.cc:378-413).  Over-length
requests return empty; the length is clamped to `size - readptr`; the
chunk loop fetches `length / chunk_size + 1` chunks starting at
`readptr / chunk_size`; on success the first `readptr % chunk_size` bytes
are erased, the result is resized to the clamped length and `readptr`
advances by it; an error in the loop returns empty with the state
untouched. -/
def ReadT (codec : Codec) (s : ImageState) (length0 : Nat) : ReadOutcome :=
  if AFF4_MAX_READ_LEN < length0 then
    { bytes := [], state := s, assembled := [], trace := [], errored := false }
  else
    let len := min length0 (s.size - s.readptr)
    let initial_chunk_offset := s.readptr % s.chunk_size
    let chunks_to_read := len / s.chunk_size + 1
    let chunk_id := s.readptr / s.chunk_size
    match ReadLoopF codec s.chunk_size s.chunks_per_segment s.compression s.volume
        chunks_to_read chunk_id chunks_to_read [] [] with
    | none => { bytes := [], state := s, assembled := [], trace := [], errored := true }
    | some rt =>
        let result1 := rt.1.drop initial_chunk_offset
        { bytes := resizeTo result1 len
          state := { s with readptr := s.readptr + len }
          assembled := rt.1
          trace := rt.2
          errored := false }

/-- The caller-visible projection of `ReadT`: the returned bytes and the
stream state. -/
def Read (codec : Codec) (s : ImageState) (length0 : Nat) : List Nat × ImageState :=
  let o := ReadT codec s length0
  (o.bytes, o.state)

/-- The resolver attributes `LoadFromURN` consults on the stream URN, each
possibly absent: `AFF4_STORED`, `AFF4_IMAGE_CHUNK_SIZE`,
`AFF4_IMAGE_CHUNKS_PER_SEGMENT`, `AFF4_STREAM_SIZE`,
`AFF4_IMAGE_COMPRESSION`.  The resolver itself is an external key/value
collaborator. -/
structure Resolver where
  stored_urn : Option String
  chunk_size_attr : Option Nat
  chunks_per_segment_attr : Option Nat
  stream_size_attr : Option Nat
  compression_urn : Option String
  deriving DecidableEq, Repr

/-- Modelled from the spec: the canonical compression-method URN strings
live in the lexicon translation unit, which is not under src/.  Their exact
spellings are immaterial here; only that the three methods have distinct
URNs and everything else parses as unknown. -/
def AFF4_IMAGE_COMPRESSION_ZLIB : String := "https://www.ietf.org/rfc/rfc1950.txt"

/-- The canonical snappy compression URN (see `AFF4_IMAGE_COMPRESSION_ZLIB`). -/
def AFF4_IMAGE_COMPRESSION_SNAPPY : String := "http://code.google.com/p/snappy/"

/-- The canonical stored (identity) compression URN
(see `AFF4_IMAGE_COMPRESSION_ZLIB`). -/
def AFF4_IMAGE_COMPRESSION_STORED : String := "https://www.ietf.org/rfc/rfc1950.txt#stored"

/-- Modelled from the spec: `CompressionMethodFromURN` is defined in the
lexicon translation unit, which is not under src/.  Per the spec, codecs
are represented on disk by URN strings, and a URN that maps to no known
method parses to the UNKNOWN marker. -/
def CompressionMethodFromURN (u : String) : CompressionMethod :=
  if u = AFF4_IMAGE_COMPRESSION_ZLIB then .zlib
  else if u = AFF4_IMAGE_COMPRESSION_SNAPPY then .snappy
  else if u = AFF4_IMAGE_COMPRESSION_STORED then .stored
  else .unknown

/-- `AFF4Image::LoadFromURN` (src/src/aff4_image.cc:46-80).  A missing
`AFF4_STORED` attribute is `NOT_FOUND` (the volume URN itself is an opaque
identifier not tracked in the state).  Chunk size, chunks per segment and
stream size are taken from the resolver when present.  When a compression
URN is recorded, it is parsed and the member assigned before checking: an
unknown URN leaves the member at the UNKNOWN marker and returns
`NOT_IMPLEMENTED`; when none is recorded, the member keeps its ZLIB
default. -/
def LoadFromURN (r : Resolver) (s : ImageState) : AFF4Status × ImageState :=
  match r.stored_urn with
  | none => (.NOT_FOUND, s)
  | some _ =>
      let s1 := match r.chunk_size_attr with
        | some v => { s with chunk_size := v }
        | none => s
      let s2 := match r.chunks_per_segment_attr with
        | some v => { s1 with chunks_per_segment := v }
        | none => s1
      let s3 := match r.stream_size_attr with
        | some v => { s2 with size := v }
        | none => s2
      match r.compression_urn with
      | none => (.STATUS_OK, s3)
      | some u =>
          let c := CompressionMethodFromURN u
          let s4 := { s3 with compression := c }
          if c = .unknown then (.NOT_IMPLEMENTED, s4)
          else (.STATUS_OK, s4)

/-- A whole writing session: the states reached by a sequence of `Write`
calls, folded left to right. -/
def writeAll (env : VolEnv) (codec : Codec) (s : ImageState) (ws : List (List Nat)) :
    ImageState :=
  ws.foldl (fun st d => (Write env codec st d).2) s

/-- A zlib codec stand-in exhibiting the one property of real zlib streams
a theorem below uses: `compress2` of the empty input is a nonempty stream
(every zlib stream carries at least a header and an Adler32 trailer). -/
def pseudoZlibCodec : Codec :=
  { zlibDeflate := fun d => some (120 :: 1 :: (d ++ [3, 0, 0, 0, 0, 1]))
    zlibInflate := fun _ => none
    snappyCompressFn := fun d => d
    snappyUncompressFn := fun _ => none }

/-- The state of spec scenario S1 after `Write("ABCDEFGHIJ")` and `Flush`
(`chunk_size = 4`, `chunks_per_segment = 2`, STORED). -/
def scenarioS1 : ImageState :=
  (Flush okEnv trivialCodec
    (Write okEnv trivialCodec (freshState 4 2 .stored)
      [65, 66, 67, 68, 69, 70, 71, 72, 73, 74]).2).2

/-- A readable but undersized volume: `size` claims 8 bytes over chunks of
4 with one chunk per bevy, but the three bevies hold only 4 data bytes in
total (the kind of state only external corruption can produce).  Every
chunk of a `Read(8)` decodes without error, yet fewer bytes than the
clamped length are assembled. -/
def shortChunksState : ImageState :=
  { freshState 4 1 .stored with
    size := 8,
    volume := [(0, u32le 0, [65, 66]), (1, u32le 0, [67, 68]), (2, u32le 0, [])] }

/-- Spec scenario S6: a well-formed stream whose bevy 0 index member has
been truncated to zero bytes. -/
def corruptIndexState : ImageState :=
  { freshState 4 2 .stored with
    size := 8,
    volume := [(0, [], [65, 66, 67, 68, 69, 70, 71, 72])] }

/-- What the source computes as `compressed_chunk_size`, as recorded in a
trace entry: `Size() - Tell()` for the last index entry (both mod 2^32 via
the `unsigned int` conversion), `index[j+1] - index[j]` otherwise. -/
def traceSizeSpec (e : ChunkDecodeTrace) : Prop :=
  (e.j = e.indexLen - 1 →
    e.usedSize = u32cast ((e.bevySize : Int) - (e.posBefore : Int))) ∧
  (e.j ≠ e.indexLen - 1 →
    e.usedSize = u32cast ((e.idxJ1 : Int) - (e.idxJ : Int)))

/-- All entries of a decode trace satisfy `traceSizeSpec`. -/
def TraceOK (l : List ChunkDecodeTrace) : Prop :=
  ∀ e ∈ l, traceSizeSpec e

/-- Two states agree on every field the chunk-cutting loop does not touch:
the stream position, size, line buffer, dirty flag and the three
configuration parameters. -/
def auxEq (t s : ImageState) : Prop :=
  t.readptr = s.readptr ∧ t.size = s.size ∧ t.buffer = s.buffer ∧ t.dirty = s.dirty ∧
  t.chunk_size = s.chunk_size ∧ t.chunks_per_segment = s.chunks_per_segment ∧
  t.compression = s.compression

/-- Two states agree on every field the chunk-cutting pipeline reads or
writes: the three configuration parameters, the bevy builder accumulators,
the chunk count, the bevy counter and the persisted volume members. -/
def coreEq (t s : ImageState) : Prop :=
  t.chunk_size = s.chunk_size ∧ t.chunks_per_segment = s.chunks_per_segment ∧
  t.compression = s.compression ∧ t.bevy = s.bevy ∧ t.bevy_index = s.bevy_index ∧
  t.chunk_count_in_bevy = s.chunk_count_in_bevy ∧ t.bevy_number = s.bevy_number ∧
  t.volume = s.volume

/-- Agreement on every field except `readptr` and `size`. -/
def obsEq (t s : ImageState) : Prop :=
  coreEq t s ∧ t.buffer = s.buffer ∧ t.dirty = s.dirty

/-- A codec whose zlib decoder always reports five decompressed bytes;
used to exhibit the over-length decode failure against a four-byte chunk
size. -/
def oversizeInflateCodec : Codec :=
  { zlibDeflate := fun _ => none
    zlibInflate := fun _ => some [0, 0, 0, 0, 0]
    snappyCompressFn := fun d => d
    snappyUncompressFn := fun _ => none }

/-- C2: concrete scenario S1 — with `chunk_size = 4`, `chunks_per_segment
= 2`, STORED compression, after `Write("ABCDEFGHIJ")` (bytes 65..74) and
`Flush` the volume holds bevy 0 with data member `"ABCDEFGH"` and index
member encoding the little-endian u32 array `[0, 4]`, bevy 1 with data
member `"IJ"` and index member encoding `[0]`, and the stream's size
equals 10. -/
theorem C2_scenario_S1_layout :
    scenarioS1.volume =
      [(0, u32le 0 ++ u32le 4, [65, 66, 67, 68, 69, 70, 71, 72]),
       (1, u32le 0, [73, 74])] ∧
    scenarioS1.size = 10 := by decide

/-- C1 (code_bug evaluation): the write/flush/read round-trip fails
whenever the total written length is a positive multiple of
`chunk_size * chunks_per_segment`.  Concretely, with `chunk_size = 1` and
`chunks_per_segment = 1` under STORED, after `Write("A")` and `Flush`
(stream size 1) a `Read` of the full length from offset 0 over-fetches one
chunk past the last bevy (`chunks_to_read = length / chunk_size + 1`),
hits the missing-bevy error of `_ReadPartial`, and therefore returns empty
instead of `"A"`, leaving `readptr` at 0. -/
theorem C1_roundtrip_fails_at_bevy_multiple :
    (Flush okEnv trivialCodec
        (Write okEnv trivialCodec (freshState 1 1 .stored) [65]).2).2.size = 1 ∧
    Read trivialCodec
        { (Flush okEnv trivialCodec
            (Write okEnv trivialCodec (freshState 1 1 .stored) [65]).2).2 with
          readptr := 0 } 1 =
      ([], { (Flush okEnv trivialCodec
          (Write okEnv trivialCodec (freshState 1 1 .stored) [65]).2).2 with
        readptr := 0 }) ∧
    (ReadT trivialCodec
        { (Flush okEnv trivialCodec
            (Write okEnv trivialCodec (freshState 1 1 .stored) [65]).2).2 with
          readptr := 0 } 1).errored = true := by decide

/-- C4: read-side error atomicity — whenever the chunk loop of a `Read`
reports an error (as every per-chunk decode failure does: empty bevy
index, index too short for the chunk, missing bevy member, decompression
failure), the entire `Read` returns the empty string and the stream state,
`readptr` included, is exactly what it was before the call. -/
theorem C4_read_error_atomicity (codec : Codec) (s : ImageState) (n : Nat)
    (h : (ReadT codec s n).errored = true) :
    Read codec s n = ([], s) := by
  by_cases hmax : AFF4_MAX_READ_LEN < n
  · unfold ReadT at h
    rw [if_pos hmax] at h
    exact absurd h (by simp)
  · unfold Read
    unfold ReadT at h ⊢
    rw [if_neg hmax] at h ⊢
    cases hl : ReadLoopF codec s.chunk_size s.chunks_per_segment s.compression s.volume
        (min n (s.size - s.readptr) / s.chunk_size + 1) (s.readptr / s.chunk_size)
        (min n (s.size - s.readptr) / s.chunk_size + 1) [] [] with
    | none => simp only [hl]
    | some rt =>
        simp only [hl] at h
        exact absurd h (by simp)

/-- C4 witness: spec scenario S6 — bevy 0's index member truncated to zero
bytes; the `Read(4)` spanning that bevy errors, returns empty, and leaves
the state untouched. -/
theorem C4_read_error_atomicity_witness :
    (ReadT trivialCodec corruptIndexState 4).errored = true ∧
    Read trivialCodec corruptIndexState 4 = ([], corruptIndexState) :=
  ⟨by decide, C4_read_error_atomicity trivialCodec corruptIndexState 4 (by decide)⟩

/-- C5 counterexample: a chunk decoded during a real `Read` whose local
index `j` is the last index entry, for which the compressed size the code
used is NOT the bevy data member's size minus `index[j]`.  Reading 4 bytes
at offset 4 of scenario S1 starts directly at the last chunk of bevy 0
(fresh stream, `Tell() = 0`): the code uses `Size() - Tell() = 8`, while
the claim's value is `Size() - index[1] = 8 - 4 = 4`. -/
theorem C5_last_chunk_size_counterexample :
    let e : ChunkDecodeTrace :=
      { chunk_id := 1, j := 1, indexLen := 2, bevySize := 8,
        posBefore := 0, idxJ := 4, idxJ1 := 0, usedSize := 8 }
    (ReadT trivialCodec { scenarioS1 with readptr := 4 } 4).errored = false ∧
    (ReadT trivialCodec { scenarioS1 with readptr := 4 } 4).trace.head? = some e ∧
    e.j = e.indexLen - 1 ∧ e.usedSize ≠ e.bevySize - e.idxJ := by decide

/-- C6 counterexample: a `Read` that completes without error yet returns
bytes that were never decoded from any chunk.  On a volume whose bevies
hold fewer bytes than `size` announces (reachable only by corruption),
every requested chunk decodes cleanly but short, and the final
`result.resize(length)` pads the output with zero bytes: `Read(8)` returns
`"ABCD"` followed by four fabricated zero bytes and advances `readptr`. -/
theorem C6_zero_padding_counterexample :
    (ReadT trivialCodec shortChunksState 8).errored = false ∧
    Read trivialCodec shortChunksState 8 =
      ([65, 66, 67, 68, 0, 0, 0, 0], { shortChunksState with readptr := 8 }) ∧
    (ReadT trivialCodec shortChunksState 8).assembled = [65, 66, 67, 68] := by decide

theorem resizeTo_of_le (l : List Nat) (n : Nat) (h : n ≤ l.length) :
    resizeTo l n = l.take n := by
  simp [resizeTo, Nat.sub_eq_zero_of_le h]

/-- C6 amended: for every `Read` that completes without error, the result
is the assembled chunk concatenation with the intra-chunk skip removed and
then resized (`std::string::resize`) to the clamped length.  When the
assembled bytes cover the clamped length — as on any volume whose chunks
decode to their full sizes, in particular writer-produced layouts — the
result is a prefix of the decoded bytes and no padding occurs; when the
decoded bytes fall short (possible only with corrupt bevy contents) the
resize zero-pads the tail. -/
theorem C6_amended_read_resize_semantics (codec : Codec) (s : ImageState) (n : Nat)
    (hmax : ¬ AFF4_MAX_READ_LEN < n)
    (herr : (ReadT codec s n).errored = false) :
    (ReadT codec s n).bytes =
      resizeTo ((ReadT codec s n).assembled.drop (s.readptr % s.chunk_size))
        (min n (s.size - s.readptr)) ∧
    (min n (s.size - s.readptr) ≤
        ((ReadT codec s n).assembled.drop (s.readptr % s.chunk_size)).length →
      (ReadT codec s n).bytes =
        ((ReadT codec s n).assembled.drop (s.readptr % s.chunk_size)).take
          (min n (s.size - s.readptr))) := by
  unfold ReadT at herr ⊢
  rw [if_neg hmax] at herr ⊢
  cases hl : ReadLoopF codec s.chunk_size s.chunks_per_segment s.compression s.volume
      (min n (s.size - s.readptr) / s.chunk_size + 1) (s.readptr / s.chunk_size)
      (min n (s.size - s.readptr) / s.chunk_size + 1) [] [] with
  | none =>
      simp only [hl] at herr
      exact absurd herr (by simp)
  | some rt =>
      simp only [hl]
      refine ⟨by simp, fun hle => ?_⟩
      exact resizeTo_of_le _ _ hle

/-- C6 amended witness: the legitimate full read of scenario S1 (10 bytes
over 4-byte chunks, short final chunk): the assembled bytes cover the
request, so the result is exactly their prefix — no padding. -/
theorem C6_amended_read_resize_semantics_witness :
    (¬ AFF4_MAX_READ_LEN < 10) ∧
    (ReadT trivialCodec { scenarioS1 with readptr := 0 } 10).errored = false ∧
    (ReadT trivialCodec { scenarioS1 with readptr := 0 } 10).bytes =
      ((ReadT trivialCodec { scenarioS1 with readptr := 0 } 10).assembled.drop
          (({ scenarioS1 with readptr := 0 } : ImageState).readptr %
            ({ scenarioS1 with readptr := 0 } : ImageState).chunk_size)).take
        (min 10 (({ scenarioS1 with readptr := 0 } : ImageState).size -
          ({ scenarioS1 with readptr := 0 } : ImageState).readptr)) :=
  ⟨by decide, by decide,
    (C6_amended_read_resize_semantics trivialCodec { scenarioS1 with readptr := 0 } 10
      (by decide) (by decide)).2 (by decide)⟩

theorem auxEq_refl (s : ImageState) : auxEq s s := by
  simp [auxEq]

theorem auxEq_trans (t u s : ImageState) (h1 : auxEq t u) (h2 : auxEq u s) : auxEq t s := by
  unfold auxEq at h1 h2 ⊢
  obtain ⟨a1, a2, a3, a4, a5, a6, a7⟩ := h1
  obtain ⟨b1, b2, b3, b4, b5, b6, b7⟩ := h2
  exact ⟨a1.trans b1, a2.trans b2, a3.trans b3, a4.trans b4, a5.trans b5,
    a6.trans b6, a7.trans b7⟩

theorem FlushBevy_auxEq (env : VolEnv) (s : ImageState) :
    auxEq (_FlushBevy env s).2 s := by
  unfold _FlushBevy auxEq
  split
  · simp
  · split
    · simp
    · split <;> simp

theorem FlushChunk_auxEq (env : VolEnv) (codec : Codec) (s : ImageState) (data : List Nat) :
    auxEq (FlushChunk env codec s data).2 s := by
  unfold FlushChunk
  cases hc : s.compression <;> simp only [hc] <;>
    first
    | exact auxEq_refl s
    | (split
       · exact auxEq_trans _ _ _ (FlushBevy_auxEq _ _) (by simp [auxEq, hc])
       · simp [auxEq, hc])

theorem consumeChunksF_auxEq (env : VolEnv) (codec : Codec) :
    ∀ (fuel : Nat) (s : ImageState) (buf : List Nat),
      auxEq (consumeChunksF env codec fuel s buf).2.1 s
  | 0, s, _buf => by
      unfold consumeChunksF
      exact auxEq_refl s
  | fuel + 1, s, buf => by
      unfold consumeChunksF
      split
      · split
        · exact auxEq_trans _ _ _
            (consumeChunksF_auxEq env codec fuel _ _) (FlushChunk_auxEq env codec s _)
        · exact FlushChunk_auxEq env codec s _
      · exact auxEq_refl s

/-- C7: the `Write` return contract — when every chunk flush the call
triggers succeeds (the chunk-cutting loop completes), `Write` returns
exactly the input length, advances `readptr` by it and raises `size` to
`readptr` when passed; when any triggered chunk flush fails (the loop
aborts), `Write` returns 0. -/
theorem C7_write_return_contract (env : VolEnv) (codec : Codec) (s : ImageState)
    (data : List Nat) :
    ((consumeChunksF env codec (s.buffer ++ data).length
        { s with dirty := true, buffer := s.buffer ++ data } (s.buffer ++ data)).1 = true →
      (Write env codec s data).1 = data.length ∧
      (Write env codec s data).2.readptr = s.readptr + data.length ∧
      (Write env codec s data).2.size = max s.size (s.readptr + data.length)) ∧
    ((consumeChunksF env codec (s.buffer ++ data).length
        { s with dirty := true, buffer := s.buffer ++ data } (s.buffer ++ data)).1 = false →
      (Write env codec s data).1 = 0) := by
  have haux := consumeChunksF_auxEq env codec (s.buffer ++ data).length
    { s with dirty := true, buffer := s.buffer ++ data } (s.buffer ++ data)
  cases hres : consumeChunksF env codec (s.buffer ++ data).length
      { s with dirty := true, buffer := s.buffer ++ data } (s.buffer ++ data) with
  | mk flag pr =>
    obtain ⟨s1, rest⟩ := pr
    rw [hres] at haux
    unfold auxEq at haux
    obtain ⟨h1, h2, _h3, _h4, _h5, _h6, _h7⟩ := haux
    simp only at h1 h2
    cases flag
    · refine ⟨fun hflag => ?_, fun _ => ?_⟩
      · exact absurd hflag (by simp)
      · unfold Write
        rw [hres]
    · refine ⟨fun _ => ?_, fun hflag => ?_⟩
      · unfold Write
        rw [hres]
        exact ⟨by simp, by simp [h1], by simp [h1, h2]⟩
      · exact absurd hflag (by simp)

/-- C7 witness: a successful five-byte write into a fresh STORED stream
(one full chunk flushed, two bytes buffered) returns 5 and moves
`readptr` and `size` to 5; a write whose triggered bevy flush cannot open
the volume returns 0. -/
theorem C7_write_return_contract_witness :
    ((Write okEnv trivialCodec (freshState 4 2 .stored) [65, 66, 67, 68, 69]).1 = 5 ∧
     (Write okEnv trivialCodec (freshState 4 2 .stored) [65, 66, 67, 68, 69]).2.readptr = 5 ∧
     (Write okEnv trivialCodec (freshState 4 2 .stored) [65, 66, 67, 68, 69]).2.size = 5) ∧
    (Write { volumeOk := false, createOk := true } trivialCodec
        (freshState 4 1 .stored) [65, 66, 67, 68]).1 = 0 :=
  ⟨(C7_write_return_contract okEnv trivialCodec (freshState 4 2 .stored)
      [65, 66, 67, 68, 69]).1 (by decide),
   (C7_write_return_contract { volumeOk := false, createOk := true } trivialCodec
      (freshState 4 1 .stored) [65, 66, 67, 68]).2 (by decide)⟩

/-- C8: the `LoadFromURN` contract on a fresh stream: a missing stored-in
(volume) attribute yields `NOT_FOUND`; a recorded compression URN that
parses to no known method yields `NOT_IMPLEMENTED` with the compression
member left at the UNKNOWN marker (no fallback to any default after the
failed parse); no recorded compression URN at all yields success with the
compression at its ZLIB default. -/
theorem C8_load_contract (r : Resolver) :
    (r.stored_urn = none → LoadFromURN r initImageState = (.NOT_FOUND, initImageState)) ∧
    (∀ v u, r.stored_urn = some v → r.compression_urn = some u →
      CompressionMethodFromURN u = .unknown →
      (LoadFromURN r initImageState).1 = .NOT_IMPLEMENTED ∧
      (LoadFromURN r initImageState).2.compression = .unknown) ∧
    (∀ v, r.stored_urn = some v → r.compression_urn = none →
      (LoadFromURN r initImageState).1 = .STATUS_OK ∧
      (LoadFromURN r initImageState).2.compression = .zlib) := by
  obtain ⟨su, csa, cpsa, ssa, cu⟩ := r
  refine ⟨fun h1 => ?_, fun v u h1 h2 h3 => ?_, fun v h1 h2 => ?_⟩
  · simp only at h1
    subst h1
    rfl
  · simp only at h1 h2
    subst h1
    subst h2
    unfold LoadFromURN
    cases csa <;> cases cpsa <;> cases ssa <;> simp [h3]
  · simp only at h1 h2
    subst h1
    subst h2
    unfold LoadFromURN
    cases csa <;> cases cpsa <;> cases ssa <;> simp [initImageState]

/-- C8 witness: the three branches at concrete resolvers — no stored-in
attribute; a bogus compression URN; no compression URN. -/
theorem C8_load_contract_witness :
    LoadFromURN
        { stored_urn := none, chunk_size_attr := none, chunks_per_segment_attr := none,
          stream_size_attr := none, compression_urn := none } initImageState =
      (.NOT_FOUND, initImageState) ∧
    ((LoadFromURN
        { stored_urn := some "aff4://vol", chunk_size_attr := none,
          chunks_per_segment_attr := none, stream_size_attr := none,
          compression_urn := some "bogus" } initImageState).1 = .NOT_IMPLEMENTED ∧
     (LoadFromURN
        { stored_urn := some "aff4://vol", chunk_size_attr := none,
          chunks_per_segment_attr := none, stream_size_attr := none,
          compression_urn := some "bogus" } initImageState).2.compression = .unknown) ∧
    ((LoadFromURN
        { stored_urn := some "aff4://vol", chunk_size_attr := none,
          chunks_per_segment_attr := none, stream_size_attr := none,
          compression_urn := none } initImageState).1 = .STATUS_OK ∧
     (LoadFromURN
        { stored_urn := some "aff4://vol", chunk_size_attr := none,
          chunks_per_segment_attr := none, stream_size_attr := none,
          compression_urn := none } initImageState).2.compression = .zlib) :=
  ⟨(C8_load_contract _).1 rfl,
   (C8_load_contract _).2.1 "aff4://vol" "bogus" rfl rfl (by decide),
   (C8_load_contract _).2.2 "aff4://vol" rfl rfl⟩

/-- C9: a failed non-empty bevy flush consumes exactly one bevy number and
finalizes nothing — when `_FlushBevy` runs on a non-empty builder and the
volume cannot be opened (or member creation fails), it reports an error,
`bevy_number` has nevertheless already been incremented by one (the
post-increment happens while forming the bevy URN), and the builder's data
and index buffers, `chunk_count_in_bevy` and the volume's persisted
members are all left unchanged. -/
theorem C9_failed_flush_consumes_bevy_number (env : VolEnv) (s : ImageState)
    (hne : s.bevy ≠ []) (hfail : env.volumeOk = false ∨ env.createOk = false) :
    (_FlushBevy env s).1 ≠ .STATUS_OK ∧
    (_FlushBevy env s).2.bevy_number = s.bevy_number + 1 ∧
    (_FlushBevy env s).2.bevy = s.bevy ∧
    (_FlushBevy env s).2.bevy_index = s.bevy_index ∧
    (_FlushBevy env s).2.chunk_count_in_bevy = s.chunk_count_in_bevy ∧
    (_FlushBevy env s).2.volume = s.volume := by
  unfold _FlushBevy
  by_cases hv : env.volumeOk = false
  · rw [if_neg (by simpa using hne), if_pos hv]
    simp
  · rcases hfail with h | h
    · exact absurd h hv
    · rw [if_neg (by simpa using hne), if_neg hv, if_pos h]
      simp

/-- C9 witness: a builder holding one stored chunk, flushed while the
volume cannot be opened: `NOT_FOUND`, bevy number 3 consumed (now 4),
builder and volume untouched. -/
theorem C9_failed_flush_consumes_bevy_number_witness :
    let s : ImageState := { freshState 4 2 .stored with
      bevy := [65], bevy_index := [0, 0, 0, 0], chunk_count_in_bevy := 1, bevy_number := 3 }
    let env : VolEnv := { volumeOk := false, createOk := true }
    (_FlushBevy env s).1 ≠ .STATUS_OK ∧
    (_FlushBevy env s).2.bevy_number = s.bevy_number + 1 ∧
    (_FlushBevy env s).2.bevy = s.bevy ∧
    (_FlushBevy env s).2.bevy_index = s.bevy_index ∧
    (_FlushBevy env s).2.chunk_count_in_bevy = s.chunk_count_in_bevy ∧
    (_FlushBevy env s).2.volume = s.volume :=
  C9_failed_flush_consumes_bevy_number _ _ (by decide) (Or.inl rfl)

theorem DeCompressZlib_success_length (codec : Codec) (d : List Nat) (cap : Nat)
    (h : (DeCompressZlib_ codec d cap).1 = .STATUS_OK) :
    (DeCompressZlib_ codec d cap).2.length ≤ cap := by
  unfold DeCompressZlib_ at h ⊢
  cases hz : codec.zlibInflate d with
  | none =>
      simp [hz] at h
  | some out =>
      simp only [hz] at h ⊢
      by_cases hl : out.length ≤ cap
      · rw [if_pos hl]
        exact hl
      · rw [if_neg hl] at h
        exact absurd h (by simp)

/-- C10: the output buffer handed to the zlib decoder has capacity exactly
`chunk_size`, so any compressed input whose true decompressed length
exceeds `chunk_size` makes `DeCompressZlib_` fail with `IO_ERROR`; and a
zlib chunk decode never appends more than `chunk_size` bytes to the result
(on success the appended chunk fits the cap; on error nothing at all is
appended). -/
theorem C10_zlib_decode_capped (codec : Codec) (cs cps : Nat) (res : List Nat)
    (cid : Nat) (bs : BevyStream) (idx : List Nat) :
    (∀ cbuf out, codec.zlibInflate cbuf = some out → cs < out.length →
      DeCompressZlib_ codec cbuf cs = (.IO_ERROR, [])) ∧
    ((_ReadChunkFromBevy codec cs cps .zlib res cid bs idx).1 = .STATUS_OK →
      ∃ d, (_ReadChunkFromBevy codec cs cps .zlib res cid bs idx).2.1 = res ++ d ∧
        d.length ≤ cs) ∧
    ((_ReadChunkFromBevy codec cs cps .zlib res cid bs idx).1 ≠ .STATUS_OK →
      (_ReadChunkFromBevy codec cs cps .zlib res cid bs idx).2.1 = res) := by
  refine ⟨fun cbuf out hz hlt => ?_, ?_⟩
  · unfold DeCompressZlib_
    simp only [hz]
    rw [if_neg (by omega)]
  · simp only [_ReadChunkFromBevy]
    split
    · exact ⟨fun hok => absurd hok (by simp), fun _ => rfl⟩
    · split
      · exact ⟨fun hok => absurd hok (by simp), fun _ => rfl⟩
      · split
        · next hdec =>
            refine ⟨fun _ => ⟨_, rfl, ?_⟩, fun hne => absurd (by simp) hne⟩
            exact DeCompressZlib_success_length _ _ _ hdec
        · next hdec =>
            exact ⟨fun hok => absurd hok hdec, fun _ => rfl⟩

theorem readChunk_trace_spec (codec : Codec) (cs cps : Nat) (c : CompressionMethod)
    (res : List Nat) (cid : Nat) (bs : BevyStream) (idx : List Nat)
    (e : ChunkDecodeTrace)
    (h : (_ReadChunkFromBevy codec cs cps c res cid bs idx).2.2.2 = some e) :
    traceSizeSpec e := by
  simp only [_ReadChunkFromBevy] at h
  split at h
  · exact absurd h (by simp)
  · split at h
    · exact absurd h (by simp)
    · split at h <;>
      · simp only at h
        injection h with h
        subst h
        refine ⟨fun hj => ?_, fun hj => ?_⟩ <;>
          simp only at hj ⊢ <;>
          simp [compressedChunkSize, hj]

theorem TraceOK_nil : TraceOK [] := by
  intro e he
  exact absurd he (by simp)

theorem TraceOK_append_one (l : List ChunkDecodeTrace) (e : ChunkDecodeTrace)
    (hl : TraceOK l) (he : traceSizeSpec e) : TraceOK (l ++ [e]) := by
  intro x hx
  rcases List.mem_append.mp hx with h | h
  · exact hl x h
  · rw [List.mem_singleton.mp h]
    exact he

theorem inner_trace_ok (codec : Codec) (cs cps : Nat) (c : CompressionMethod)
    (bevy_id : Nat) (idx : List Nat) :
    ∀ (ctr : Nat) (bs : BevyStream) (cid cread : Nat) (res : List Nat)
      (tr : List ChunkDecodeTrace), TraceOK tr →
      TraceOK (_ReadPartialInner codec cs cps c bevy_id idx ctr bs cid cread res tr).trace
  | 0, _bs, _cid, _cread, _res, _tr, htr => by
      simp only [_ReadPartialInner]
      exact htr
  | ctr + 1, bs, cid, cread, res, tr, htr => by
      have htr1 : TraceOK (match (_ReadChunkFromBevy codec cs cps c res cid bs idx).2.2.2 with
          | some e => tr ++ [e]
          | none => tr) := by
        cases hc : (_ReadChunkFromBevy codec cs cps c res cid bs idx).2.2.2 with
        | none => simpa [hc] using htr
        | some e =>
            simp only [hc]
            exact TraceOK_append_one tr e htr
              (readChunk_trace_spec codec cs cps c res cid bs idx e hc)
      simp only [_ReadPartialInner]
      split
      · split
        · exact htr1
        · exact inner_trace_ok codec cs cps c bevy_id idx ctr _ _ _ _ _ htr1
      · exact htr1

theorem outer_trace_ok (codec : Codec) (cs cps : Nat) (c : CompressionMethod)
    (vol : List (Nat × List Nat × List Nat)) :
    ∀ (fuel cid ctr cread : Nat) (res : List Nat) (tr : List ChunkDecodeTrace),
      TraceOK tr →
      TraceOK (_ReadPartialF codec cs cps c vol fuel cid ctr cread res tr).2.2
  | 0, _cid, _ctr, _cread, _res, _tr, htr => by
      simp only [_ReadPartialF]
      exact htr
  | fuel + 1, cid, ctr, cread, res, tr, htr => by
      simp only [_ReadPartialF]
      split
      · exact htr
      · cases hm : lookupMember vol (cid / cps) with
        | none =>
            simp only [hm]
            exact htr
        | some m =>
            simp only [hm]
            split
            · exact outer_trace_ok codec cs cps c vol fuel _ _ _ _ _
                (inner_trace_ok codec cs cps c (cid / cps) (u32leDecode m.1) ctr
                  { data := m.2, pos := 0 } cid cread res tr htr)
            · exact inner_trace_ok codec cs cps c (cid / cps) (u32leDecode m.1) ctr
                { data := m.2, pos := 0 } cid cread res tr htr

theorem readLoop_trace_ok (codec : Codec) (cs cps : Nat) (c : CompressionMethod)
    (vol : List (Nat × List Nat × List Nat)) :
    ∀ (fuel cid ctr : Nat) (res : List Nat) (tr : List ChunkDecodeTrace),
      TraceOK tr →
      ∀ out, ReadLoopF codec cs cps c vol fuel cid ctr res tr = some out →
        TraceOK out.2
  | 0, _cid, _ctr, res, tr, htr, out => by
      intro hout
      simp only [ReadLoopF] at hout
      injection hout with hout
      rw [← hout]
      exact htr
  | fuel + 1, cid, ctr, res, tr, htr, out => by
      intro hout
      simp only [ReadLoopF] at hout
      split at hout
      · injection hout with hout
        rw [← hout]
        exact htr
      · have houter := outer_trace_ok codec cs cps c vol ctr cid ctr 0 res tr htr
        split at hout
        · exact absurd hout (by simp)
        · split at hout
          · injection hout with hout
            rw [← hout]
            exact houter
          · exact readLoop_trace_ok codec cs cps c vol fuel cid _ _ _ houter out hout

/-- C5 amended: for every chunk whose compressed-size computation is
reached during any `Read`, when the local index `j` is not the last entry
the size used equals `index[j+1] - index[j]` (as the claim says), but when
`j == index_len - 1` the size used is the bevy stream's size minus its
current position `Tell()` — not size minus `index[j]`.  The two coincide
exactly when the position equals `index[j]`, which holds when the bevy's
chunks are decoded in order from its first chunk, but not when the `Read`
starts directly at the last chunk of a bevy with `index[j] > 0` (the bytes
actually read are nevertheless the same, because the bevy stream clamps
the read at end of stream). -/
theorem C5_amended_last_chunk_size (codec : Codec) (s : ImageState) (n : Nat) :
    TraceOK (ReadT codec s n).trace ∧
    ∀ e ∈ (ReadT codec s n).trace, e.j = e.indexLen - 1 → e.posBefore = e.idxJ →
      e.idxJ ≤ e.bevySize → e.bevySize < 4294967296 →
      e.usedSize = e.bevySize - e.idxJ := by
  have h1 : TraceOK (ReadT codec s n).trace := by
    unfold ReadT
    split
    · exact TraceOK_nil
    · cases hl : ReadLoopF codec s.chunk_size s.chunks_per_segment s.compression s.volume
          (min n (s.size - s.readptr) / s.chunk_size + 1) (s.readptr / s.chunk_size)
          (min n (s.size - s.readptr) / s.chunk_size + 1) [] [] with
      | none =>
          simp only [hl]
          exact TraceOK_nil
      | some rt =>
          simp only [hl]
          exact readLoop_trace_ok codec s.chunk_size s.chunks_per_segment s.compression
            s.volume _ _ _ [] [] TraceOK_nil rt hl
  refine ⟨h1, fun e he hj hpos hle hb => ?_⟩
  have hu := (h1 e he).1 hj
  rw [hu, hpos]
  unfold u32cast
  omega

theorem FlushBevy_ok (env : VolEnv) (s : ImageState)
    (hv : env.volumeOk = true) (hc : env.createOk = true) :
    (_FlushBevy env s).1 = .STATUS_OK := by
  unfold _FlushBevy
  split
  · rfl
  · rw [if_neg (by simp [hv]), if_neg (by simp [hc])]

theorem FlushChunk_ok (env : VolEnv) (codec : Codec) (s : ImageState) (data : List Nat)
    (hv : env.volumeOk = true) (hc : env.createOk = true)
    (hcomp : s.compression ≠ .unknown)
    (hz : ∀ d, (codec.zlibDeflate d).isSome = true) :
    (FlushChunk env codec s data).1 = .STATUS_OK := by
  unfold FlushChunk
  cases hco : s.compression with
  | unknown => exact absurd hco hcomp
  | stored =>
      simp only [hco]
      split
      · exact FlushBevy_ok env _ hv hc
      · rfl
  | zlib =>
      simp only [hco]
      unfold CompressZlib_
      obtain ⟨o, ho⟩ := Option.isSome_iff_exists.mp (hz data)
      simp only [ho]
      split
      · exact FlushBevy_ok env _ hv hc
      · rfl
  | snappy =>
      simp only [hco]
      unfold CompressSnappy_
      split
      · exact FlushBevy_ok env _ hv hc
      · rfl

theorem consumeChunksF_ok (env : VolEnv) (codec : Codec)
    (hv : env.volumeOk = true) (hc : env.createOk = true)
    (hz : ∀ d, (codec.zlibDeflate d).isSome = true) :
    ∀ (fuel : Nat) (s : ImageState) (buf : List Nat), s.compression ≠ .unknown →
      (consumeChunksF env codec fuel s buf).1 = true
  | 0, _s, _buf, _hcomp => rfl
  | fuel + 1, s, buf, hcomp => by
      unfold consumeChunksF
      split
      · rw [if_pos (FlushChunk_ok env codec s _ hv hc hcomp hz)]
        refine consumeChunksF_ok env codec hv hc hz fuel _ _ ?_
        rw [(FlushChunk_auxEq env codec s (buf.take s.chunk_size)).2.2.2.2.2.2]
        exact hcomp
      · rfl

theorem FlushBevy_congr (env : VolEnv) (t s : ImageState) (h : coreEq t s) :
    (_FlushBevy env t).1 = (_FlushBevy env s).1 ∧
    coreEq (_FlushBevy env t).2 (_FlushBevy env s).2 := by
  obtain ⟨h1, h2, h3, h4, h5, h6, h7, h8⟩ := h
  unfold _FlushBevy
  by_cases hb : s.bevy.length = 0
  · rw [if_pos (by rw [h4]; exact hb), if_pos hb]
    exact ⟨rfl, h1, h2, h3, h4, h5, h6, h7, h8⟩
  · rw [if_neg (by rw [h4]; exact hb), if_neg hb]
    by_cases hv : env.volumeOk = false
    · simp only [if_pos hv]
      exact ⟨by trivial, by simp [coreEq, h1, h2, h3, h4, h5, h6, h7, h8]⟩
    · simp only [if_neg hv]
      by_cases hcr : env.createOk = false
      · simp only [if_pos hcr]
        exact ⟨by trivial, by simp [coreEq, h1, h2, h3, h4, h5, h6, h7, h8]⟩
      · simp only [if_neg hcr]
        exact ⟨by trivial, by simp [coreEq, h1, h2, h3, h4, h5, h6, h7, h8]⟩

theorem FlushChunk_congr (env : VolEnv) (codec : Codec) (t s : ImageState) (data : List Nat)
    (h : coreEq t s) :
    (FlushChunk env codec t data).1 = (FlushChunk env codec s data).1 ∧
    coreEq (FlushChunk env codec t data).2 (FlushChunk env codec s data).2 := by
  obtain ⟨h1, h2, h3, h4, h5, h6, h7, h8⟩ := h
  unfold FlushChunk
  rw [h3]
  cases hco : s.compression <;> simp only [hco] <;>
    first
    | exact ⟨by trivial, h1, h2, h3, h4, h5, h6, h7, h8⟩
    | (split
       · next ht =>
           rw [if_pos (by simpa [h2, h6] using ht)]
           refine FlushBevy_congr env _ _ ?_
           simp [coreEq, h1, h2, h3, h4, h5, h6, h7, h8]
       · next ht =>
           rw [if_neg (by simpa [h2, h6] using ht)]
           exact ⟨by trivial, by simp [coreEq, h1, h2, h3, h4, h5, h6, h7, h8]⟩)

theorem consumeChunksF_congr (env : VolEnv) (codec : Codec) :
    ∀ (fuel : Nat) (t s : ImageState) (buf : List Nat), coreEq t s →
      (consumeChunksF env codec fuel t buf).1 = (consumeChunksF env codec fuel s buf).1 ∧
      coreEq (consumeChunksF env codec fuel t buf).2.1
        (consumeChunksF env codec fuel s buf).2.1 ∧
      (consumeChunksF env codec fuel t buf).2.2 = (consumeChunksF env codec fuel s buf).2.2
  | 0, _t, _s, _buf, h => ⟨rfl, h, rfl⟩
  | fuel + 1, t, s, buf, h => by
      have hcs : t.chunk_size = s.chunk_size := h.1
      obtain ⟨hst, hcore⟩ := FlushChunk_congr env codec t s (buf.take s.chunk_size) h
      unfold consumeChunksF
      rw [hcs, hst]
      by_cases hg : 0 < s.chunk_size ∧ s.chunk_size ≤ buf.length
      · rw [if_pos hg, if_pos hg]
        by_cases hok : (FlushChunk env codec s (buf.take s.chunk_size)).1 = .STATUS_OK
        · rw [if_pos hok, if_pos hok]
          exact consumeChunksF_congr env codec fuel _ _ _ hcore
        · rw [if_neg hok, if_neg hok]
          exact ⟨rfl, hcore, rfl⟩
      · rw [if_neg hg, if_neg hg]
        exact ⟨rfl, h, rfl⟩

theorem consumeChunksF_stop (env : VolEnv) (codec : Codec) (fuel : Nat) (s : ImageState)
    (buf : List Nat) (hg : ¬(0 < s.chunk_size ∧ s.chunk_size ≤ buf.length)) :
    consumeChunksF env codec fuel s buf = (true, s, buf) := by
  cases fuel
  · rfl
  · unfold consumeChunksF
    rw [if_neg hg]

theorem consumeChunksF_fuel (env : VolEnv) (codec : Codec) :
    ∀ (f1 f2 : Nat) (s : ImageState) (buf : List Nat), buf.length ≤ f1 → buf.length ≤ f2 →
      consumeChunksF env codec f1 s buf = consumeChunksF env codec f2 s buf
  | 0, f2, s, buf, hl1, _hl2 => by
      have hb : buf = [] := List.length_eq_zero.mp (Nat.le_zero.mp hl1)
      subst hb
      rw [consumeChunksF_stop env codec 0 s [] (by rintro ⟨ha, hb⟩; simp at hb; omega),
        consumeChunksF_stop env codec f2 s [] (by rintro ⟨ha, hb⟩; simp at hb; omega)]
  | f1 + 1, 0, s, buf, _hl1, hl2 => by
      have hb : buf = [] := List.length_eq_zero.mp (Nat.le_zero.mp hl2)
      subst hb
      rw [consumeChunksF_stop env codec (f1 + 1) s [] (by rintro ⟨ha, hb⟩; simp at hb; omega),
        consumeChunksF_stop env codec 0 s [] (by rintro ⟨ha, hb⟩; simp at hb; omega)]
  | f1 + 1, f2 + 1, s, buf, hl1, hl2 => by
      unfold consumeChunksF
      by_cases hg : 0 < s.chunk_size ∧ s.chunk_size ≤ buf.length
      · rw [if_pos hg, if_pos hg]
        obtain ⟨hg1, hg2⟩ := hg
        by_cases hok : (FlushChunk env codec s (buf.take s.chunk_size)).1 = .STATUS_OK
        · rw [if_pos hok, if_pos hok]
          exact consumeChunksF_fuel env codec f1 f2 _ _
            (by simp only [List.length_drop]; omega)
            (by simp only [List.length_drop]; omega)
        · rw [if_neg hok, if_neg hok]
      · rw [if_neg hg, if_neg hg]

theorem consumeChunks_step (env : VolEnv) (codec : Codec) (s : ImageState) (buf : List Nat)
    (hg : 0 < s.chunk_size ∧ s.chunk_size ≤ buf.length) :
    consumeChunksF env codec buf.length s buf =
      if (FlushChunk env codec s (buf.take s.chunk_size)).1 = .STATUS_OK then
        consumeChunksF env codec (buf.drop s.chunk_size).length
          (FlushChunk env codec s (buf.take s.chunk_size)).2 (buf.drop s.chunk_size)
      else (false, (FlushChunk env codec s (buf.take s.chunk_size)).2, buf) := by
  obtain ⟨k, hk⟩ : ∃ k, buf.length = k + 1 := ⟨buf.length - 1, by omega⟩
  rw [hk]
  conv_lhs => unfold consumeChunksF
  rw [if_pos hg]
  obtain ⟨hg1, hg2⟩ := hg
  by_cases hok : (FlushChunk env codec s (buf.take s.chunk_size)).1 = .STATUS_OK
  · rw [if_pos hok, if_pos hok]
    refine consumeChunksF_fuel env codec k (buf.drop s.chunk_size).length
      (FlushChunk env codec s (buf.take s.chunk_size)).2 (buf.drop s.chunk_size) ?_ le_rfl
    have hd : (buf.drop s.chunk_size).length = buf.length - s.chunk_size :=
      List.length_drop _ _
    omega
  · rw [if_neg hok, if_neg hok]

theorem coreEq_refl (s : ImageState) : coreEq s s := by
  simp [coreEq]

theorem coreEq_symm (t s : ImageState) (h : coreEq t s) : coreEq s t := by
  obtain ⟨h1, h2, h3, h4, h5, h6, h7, h8⟩ := h
  exact ⟨h1.symm, h2.symm, h3.symm, h4.symm, h5.symm, h6.symm, h7.symm, h8.symm⟩

theorem coreEq_trans (t u s : ImageState) (h1 : coreEq t u) (h2 : coreEq u s) :
    coreEq t s := by
  obtain ⟨a1, a2, a3, a4, a5, a6, a7, a8⟩ := h1
  obtain ⟨b1, b2, b3, b4, b5, b6, b7, b8⟩ := h2
  exact ⟨a1.trans b1, a2.trans b2, a3.trans b3, a4.trans b4, a5.trans b5, a6.trans b6,
    a7.trans b7, a8.trans b8⟩

theorem consumeChunksF_append (env : VolEnv) (codec : Codec)
    (hv : env.volumeOk = true) (hcr : env.createOk = true)
    (hz : ∀ d, (codec.zlibDeflate d).isSome = true) :
    ∀ (buf : List Nat) (s : ImageState) (extra : List Nat), s.compression ≠ .unknown →
      consumeChunksF env codec (buf ++ extra).length s (buf ++ extra) =
        consumeChunksF env codec
          ((consumeChunksF env codec buf.length s buf).2.2 ++ extra).length
          (consumeChunksF env codec buf.length s buf).2.1
          ((consumeChunksF env codec buf.length s buf).2.2 ++ extra)
  | buf, s, extra, hcomp => by
      by_cases hg : 0 < s.chunk_size ∧ s.chunk_size ≤ buf.length
      · have hgl := hg.2
        have hg2 : 0 < s.chunk_size ∧ s.chunk_size ≤ (buf ++ extra).length := by
          refine ⟨hg.1, ?_⟩
          rw [List.length_append]
          omega
        rw [consumeChunks_step env codec s (buf ++ extra) hg2,
          consumeChunks_step env codec s buf hg]
        rw [List.take_append_of_le_length hg.2, List.drop_append_of_le_length hg.2]
        rw [if_pos (FlushChunk_ok env codec s _ hv hcr hcomp hz),
          if_pos (FlushChunk_ok env codec s _ hv hcr hcomp hz)]
        exact consumeChunksF_append env codec hv hcr hz (buf.drop s.chunk_size) _ extra
          (by
            rw [(FlushChunk_auxEq env codec s (buf.take s.chunk_size)).2.2.2.2.2.2]
            exact hcomp)
      · rw [consumeChunksF_stop env codec buf.length s buf hg]
termination_by buf => buf.length
decreasing_by
  simp only [List.length_drop]
  omega

theorem Write_ok_eq (env : VolEnv) (codec : Codec)
    (hv : env.volumeOk = true) (hcr : env.createOk = true)
    (hz : ∀ d, (codec.zlibDeflate d).isSome = true)
    (s : ImageState) (data : List Nat) (hcomp : s.compression ≠ .unknown) :
    Write env codec s data =
      (data.length,
        { (consumeChunksF env codec (s.buffer ++ data).length
              { s with dirty := true, buffer := s.buffer ++ data } (s.buffer ++ data)).2.1 with
          buffer := (consumeChunksF env codec (s.buffer ++ data).length
              { s with dirty := true, buffer := s.buffer ++ data } (s.buffer ++ data)).2.2
          readptr := (consumeChunksF env codec (s.buffer ++ data).length
              { s with dirty := true, buffer := s.buffer ++ data } (s.buffer ++ data)).2.1.readptr
            + data.length
          size := max (consumeChunksF env codec (s.buffer ++ data).length
              { s with dirty := true, buffer := s.buffer ++ data } (s.buffer ++ data)).2.1.size
            ((consumeChunksF env codec (s.buffer ++ data).length
              { s with dirty := true, buffer := s.buffer ++ data }
                (s.buffer ++ data)).2.1.readptr + data.length) }) := by
  have hflag := consumeChunksF_ok env codec hv hcr hz (s.buffer ++ data).length
    { s with dirty := true, buffer := s.buffer ++ data } (s.buffer ++ data)
    (by simpa using hcomp)
  unfold Write
  cases hX : consumeChunksF env codec (s.buffer ++ data).length
      { s with dirty := true, buffer := s.buffer ++ data } (s.buffer ++ data) with
  | mk flag pr =>
      obtain ⟨s1, rest⟩ := pr
      rw [hX] at hflag
      simp only at hflag
      subst hflag
      rfl

theorem obsEq_refl (s : ImageState) : obsEq s s := ⟨coreEq_refl s, rfl, rfl⟩

theorem obsEq_symm (t s : ImageState) (h : obsEq t s) : obsEq s t :=
  ⟨coreEq_symm _ _ h.1, h.2.1.symm, h.2.2.symm⟩

theorem obsEq_trans (t u s : ImageState) (h1 : obsEq t u) (h2 : obsEq u s) : obsEq t s :=
  ⟨coreEq_trans _ _ _ h1.1 h2.1, h1.2.1.trans h2.2.1, h1.2.2.trans h2.2.2⟩

theorem Write_compression (env : VolEnv) (codec : Codec) (s : ImageState) (data : List Nat) :
    (Write env codec s data).2.compression = s.compression := by
  unfold Write
  cases hX : consumeChunksF env codec (s.buffer ++ data).length
      { s with dirty := true, buffer := s.buffer ++ data } (s.buffer ++ data) with
  | mk flag pr =>
      obtain ⟨s1, rest⟩ := pr
      have haux := consumeChunksF_auxEq env codec (s.buffer ++ data).length
        { s with dirty := true, buffer := s.buffer ++ data } (s.buffer ++ data)
      rw [hX] at haux
      have h7 := haux.2.2.2.2.2.2
      simp only at h7
      cases flag
      · exact h7
      · exact h7

/-- Writing `a` and then `b` reaches, up to `readptr` and `size`, the same
state as writing `a ++ b` in one call, provided every triggered flush
succeeds (volume available, member creation succeeds, the zlib compressor
total, known compression method). -/
theorem Write_Write_obsEq (env : VolEnv) (codec : Codec)
    (hv : env.volumeOk = true) (hcr : env.createOk = true)
    (hz : ∀ d, (codec.zlibDeflate d).isSome = true)
    (s : ImageState) (a b : List Nat) (hcomp : s.compression ≠ .unknown) :
    obsEq (Write env codec (Write env codec s a).2 b).2 (Write env codec s (a ++ b)).2 := by
  have e1 := Write_ok_eq env codec hv hcr hz s a hcomp
  have hWcore : coreEq (Write env codec s a).2
      (consumeChunksF env codec (s.buffer ++ a).length
        { s with dirty := true, buffer := s.buffer ++ a } (s.buffer ++ a)).2.1 := by
    rw [e1]
    exact coreEq_refl _
  have hWbuf : (Write env codec s a).2.buffer =
      (consumeChunksF env codec (s.buffer ++ a).length
        { s with dirty := true, buffer := s.buffer ++ a } (s.buffer ++ a)).2.2 := by
    rw [e1]
  have hWcomp : (Write env codec s a).2.compression ≠ .unknown := by
    rw [Write_compression]
    exact hcomp
  have e2 := Write_ok_eq env codec hv hcr hz (Write env codec s a).2 b hWcomp
  have e3 := Write_ok_eq env codec hv hcr hz s (a ++ b) hcomp
  rw [e2, e3]
  have hassoc : s.buffer ++ (a ++ b) = s.buffer ++ a ++ b := (List.append_assoc _ _ _).symm
  rw [hassoc]
  have happ := consumeChunksF_append env codec hv hcr hz (s.buffer ++ a)
    { s with dirty := true, buffer := s.buffer ++ a ++ b } b (by exact hcomp)
  rw [happ]
  have hZX := consumeChunksF_congr env codec (s.buffer ++ a).length
    { s with dirty := true, buffer := s.buffer ++ a ++ b }
    { s with dirty := true, buffer := s.buffer ++ a } (s.buffer ++ a)
    (by simp [coreEq])
  have hbuf2 : (Write env codec s a).2.buffer ++ b =
      (consumeChunksF env codec (s.buffer ++ a).length
        { s with dirty := true, buffer := s.buffer ++ a ++ b } (s.buffer ++ a)).2.2 ++ b := by
    rw [hWbuf, ← hZX.2.2]
  rw [hbuf2]
  have hstate : coreEq
      { (Write env codec s a).2 with
        dirty := true
        buffer := (consumeChunksF env codec (s.buffer ++ a).length
          { s with dirty := true, buffer := s.buffer ++ a ++ b } (s.buffer ++ a)).2.2 ++ b }
      (consumeChunksF env codec (s.buffer ++ a).length
        { s with dirty := true, buffer := s.buffer ++ a ++ b } (s.buffer ++ a)).2.1 := by
    refine coreEq_trans _ _ _ ?_ (coreEq_symm _ _ hZX.2.1)
    obtain ⟨c1, c2, c3, c4, c5, c6, c7, c8⟩ := hWcore
    exact ⟨c1, c2, c3, c4, c5, c6, c7, c8⟩
  have hfinal := consumeChunksF_congr env codec
    ((consumeChunksF env codec (s.buffer ++ a).length
        { s with dirty := true, buffer := s.buffer ++ a ++ b } (s.buffer ++ a)).2.2 ++ b).length
    { (Write env codec s a).2 with
      dirty := true
      buffer := (consumeChunksF env codec (s.buffer ++ a).length
        { s with dirty := true, buffer := s.buffer ++ a ++ b } (s.buffer ++ a)).2.2 ++ b }
    (consumeChunksF env codec (s.buffer ++ a).length
      { s with dirty := true, buffer := s.buffer ++ a ++ b } (s.buffer ++ a)).2.1
    ((consumeChunksF env codec (s.buffer ++ a).length
        { s with dirty := true, buffer := s.buffer ++ a ++ b } (s.buffer ++ a)).2.2 ++ b)
    hstate
  have hauxL := consumeChunksF_auxEq env codec
    ((consumeChunksF env codec (s.buffer ++ a).length
        { s with dirty := true, buffer := s.buffer ++ a ++ b } (s.buffer ++ a)).2.2 ++ b).length
    { (Write env codec s a).2 with
      dirty := true
      buffer := (consumeChunksF env codec (s.buffer ++ a).length
        { s with dirty := true, buffer := s.buffer ++ a ++ b } (s.buffer ++ a)).2.2 ++ b }
    ((consumeChunksF env codec (s.buffer ++ a).length
        { s with dirty := true, buffer := s.buffer ++ a ++ b } (s.buffer ++ a)).2.2 ++ b)
  have hauxR := consumeChunksF_auxEq env codec
    ((consumeChunksF env codec (s.buffer ++ a).length
        { s with dirty := true, buffer := s.buffer ++ a ++ b } (s.buffer ++ a)).2.2 ++ b).length
    (consumeChunksF env codec (s.buffer ++ a).length
      { s with dirty := true, buffer := s.buffer ++ a ++ b } (s.buffer ++ a)).2.1
    ((consumeChunksF env codec (s.buffer ++ a).length
        { s with dirty := true, buffer := s.buffer ++ a ++ b } (s.buffer ++ a)).2.2 ++ b)
  have hauxZ := consumeChunksF_auxEq env codec (s.buffer ++ a).length
    { s with dirty := true, buffer := s.buffer ++ a ++ b } (s.buffer ++ a)
  refine ⟨?_, ?_, ?_⟩
  · obtain ⟨d1, d2, d3, d4, d5, d6, d7, d8⟩ := hfinal.2.1
    exact ⟨d1, d2, d3, d4, d5, d6, d7, d8⟩
  · exact hfinal.2.2
  · exact (hauxL.2.2.2.1).trans ((hauxR.2.2.2.1).trans hauxZ.2.2.2.1).symm

/-- A whole writing session (one or more `Write` calls) reaches, up to
`readptr` and `size`, the same state as a single `Write` of the
concatenated input. -/
theorem writeAll_single_obsEq (env : VolEnv) (codec : Codec)
    (hv : env.volumeOk = true) (hcr : env.createOk = true)
    (hz : ∀ d, (codec.zlibDeflate d).isSome = true) :
    ∀ (ws : List (List Nat)) (s : ImageState), ws ≠ [] → s.compression ≠ .unknown →
      obsEq (writeAll env codec s ws) (Write env codec s ws.flatten).2
  | [], _s, hne, _ => absurd rfl hne
  | [d], s, _, _hcomp => by
      have h1 : writeAll env codec s [d] = (Write env codec s d).2 := rfl
      have h2 : ([d] : List (List Nat)).flatten = d ++ [] := rfl
      rw [h1, h2, List.append_nil]
      exact obsEq_refl _
  | d :: d2 :: ws, s, _, hcomp => by
      have h1 : writeAll env codec s (d :: d2 :: ws) =
          writeAll env codec (Write env codec s d).2 (d2 :: ws) := rfl
      have h2 : ((d :: d2 :: ws) : List (List Nat)).flatten = d ++ (d2 :: ws).flatten := rfl
      rw [h1, h2]
      have hcomp1 : (Write env codec s d).2.compression ≠ .unknown := by
        rw [Write_compression]
        exact hcomp
      have ih := writeAll_single_obsEq env codec hv hcr hz (d2 :: ws)
        (Write env codec s d).2 (by simp) hcomp1
      exact obsEq_trans _ _ _ ih
        (Write_Write_obsEq env codec hv hcr hz s d (d2 :: ws).flatten hcomp)

/-- States that agree on everything but `readptr` and `size` persist the
same volume members on `Flush`. -/
theorem Flush_volume_obsEq (env : VolEnv) (codec : Codec) (t s : ImageState)
    (h : obsEq t s) :
    (Flush env codec t).2.volume = (Flush env codec s).2.volume := by
  obtain ⟨hcore, hbuf, hdirty⟩ := h
  unfold Flush
  rw [hdirty, hbuf]
  by_cases hd : s.dirty = true
  · rw [if_pos hd, if_pos hd]
    have h1 := FlushChunk_congr env codec t s s.buffer hcore
    have h2 : coreEq { (FlushChunk env codec t s.buffer).2 with buffer := [] }
        { (FlushChunk env codec s s.buffer).2 with buffer := [] } := by
      obtain ⟨c1, c2, c3, c4, c5, c6, c7, c8⟩ := h1.2
      exact ⟨c1, c2, c3, c4, c5, c6, c7, c8⟩
    have h3 := FlushBevy_congr env _ _ h2
    exact h3.2.2.2.2.2.2.2.2
  · rw [if_neg hd, if_neg hd]
    exact hcore.2.2.2.2.2.2.2

/-- C3 counterexample: the boundary-invariance claim, quantified over every
two sequences of `Write` calls with byte-identical concatenations, fails in
the degenerate case of zero `Write` calls versus one empty `Write` call
under a compressor whose output on empty input is nonempty (as every real
zlib or snappy stream is): the empty `Write` marks the stream dirty, so
`Flush` compresses the empty buffer as a final chunk and persists a bevy,
while the no-call session persists nothing. -/
theorem C3_boundary_invariance_counterexample :
    (([] : List (List Nat)).flatten = ([[]] : List (List Nat)).flatten) ∧
    (Flush okEnv pseudoZlibCodec
        (writeAll okEnv pseudoZlibCodec (freshState 4 2 .zlib) [])).2.volume ≠
      (Flush okEnv pseudoZlibCodec
        (writeAll okEnv pseudoZlibCodec (freshState 4 2 .zlib) [[]])).2.volume := by decide

/-- C3 amended: for every two sequences of `Write` calls with byte-identical
concatenations performed under the same parameters — provided both
sequences contain at least one call, or neither does — the persisted bevy
data and index members after `Flush` are byte-identical, whenever the
volume operations succeed and the compressor is total and the compression
method known.  (The proviso is forced by the counterexample: zero calls
versus one empty call differ in the dirty flag alone, and a dirty `Flush`
persists the compressed empty chunk.) -/
theorem C3_amended_boundary_invariance (env : VolEnv) (codec : Codec)
    (cs cps : Nat) (c : CompressionMethod) (ws1 ws2 : List (List Nat))
    (hv : env.volumeOk = true) (hcr : env.createOk = true)
    (hz : ∀ d, (codec.zlibDeflate d).isSome = true)
    (hc : c ≠ .unknown)
    (hjoin : ws1.flatten = ws2.flatten)
    (hemp : ws1 = [] ↔ ws2 = []) :
    (Flush env codec (writeAll env codec (freshState cs cps c) ws1)).2.volume =
      (Flush env codec (writeAll env codec (freshState cs cps c) ws2)).2.volume := by
  by_cases h1 : ws1 = []
  · have h2 : ws2 = [] := hemp.mp h1
    rw [h1, h2]
  · have h2 : ws2 ≠ [] := fun hh => h1 (hemp.mpr hh)
    have o1 := writeAll_single_obsEq env codec hv hcr hz ws1 (freshState cs cps c) h1 hc
    have o2 := writeAll_single_obsEq env codec hv hcr hz ws2 (freshState cs cps c) h2 hc
    rw [hjoin] at o1
    exact Flush_volume_obsEq env codec _ _ (obsEq_trans _ _ _ o1 (obsEq_symm _ _ o2))

/-- C3 amended witness: `Write("ABCD"); Write("EFGH")` and
`Write("ABCDEFGH")` (spec scenario S5) persist identical members. -/
theorem C3_amended_boundary_invariance_witness :
    (Flush okEnv trivialCodec (writeAll okEnv trivialCodec (freshState 4 2 .stored)
        [[65, 66, 67, 68], [69, 70, 71, 72]])).2.volume =
      (Flush okEnv trivialCodec (writeAll okEnv trivialCodec (freshState 4 2 .stored)
        [[65, 66, 67, 68, 69, 70, 71, 72]])).2.volume :=
  C3_amended_boundary_invariance okEnv trivialCodec 4 2 .stored
    [[65, 66, 67, 68], [69, 70, 71, 72]] [[65, 66, 67, 68, 69, 70, 71, 72]]
    rfl rfl (fun _ => rfl) (by decide) (by decide) (by decide)

/-- C5 amended witness: during the full sequential read of scenario S1 the
last chunk of bevy 0 is reached with the stream position equal to
`index[1] = 4`, so the size used coincides with the bevy size minus
`index[j]`, namely `8 - 4 = 4`. -/
theorem C5_amended_last_chunk_size_witness :
    let e : ChunkDecodeTrace :=
      { chunk_id := 1, j := 1, indexLen := 2, bevySize := 8,
        posBefore := 4, idxJ := 4, idxJ1 := 0, usedSize := 4 }
    e ∈ (ReadT trivialCodec { scenarioS1 with readptr := 0 } 10).trace ∧
    e.usedSize = e.bevySize - e.idxJ :=
  ⟨by decide,
   (C5_amended_last_chunk_size trivialCodec { scenarioS1 with readptr := 0 } 10).2
     _ (by decide) (by decide) (by decide) (by decide) (by decide)⟩

/-- C10 witness: a codec whose decoder reports five bytes against a
four-byte chunk size fails with `IO_ERROR`; a successful stored-size zlib
decode appends at most `chunk_size` bytes. -/
theorem C10_zlib_decode_capped_witness :
    DeCompressZlib_ oversizeInflateCodec [1] 4 = (.IO_ERROR, []) ∧
    (∃ d, (_ReadChunkFromBevy trivialCodec 4 2 .zlib [] 0
        { data := [65, 66], pos := 0 } [0]).2.1 = [] ++ d ∧ d.length ≤ 4) :=
  ⟨(C10_zlib_decode_capped oversizeInflateCodec 4 2 [] 0
      { data := [], pos := 0 } []).1 [1] [0, 0, 0, 0, 0] rfl (by decide),
   (C10_zlib_decode_capped trivialCodec 4 2 [] 0
      { data := [65, 66], pos := 0 } [0]).2.1 (by decide)⟩

end AFF4
